import Mathlib

/-!
Shallow embedding of `src/discord_image_bot.py` (GloweyPen/ImageScrape).

The module-level mutable state (`sent_images`, `image_queue`, `page_number`,
`TARGET_CHANNEL_ID` plus the running flag of the `continuous_scrape_and_send`
task) is modelled as a `BotState` record threaded explicitly through the
functions.  External collaborators are modelled as parameters:

* `urljoin` — `urllib.parse.urljoin`, an opaque resolver passed in;
* fetching+parsing a page — a `FetchResult` value: either `err` (any exception
  raised by `requests.get` / `raise_for_status` / parsing, caught at line 79)
  or `page srcs`, the list of `src` attributes of the `<img>` tags in document
  order (`None` for a missing attribute);
* one delivery attempt inside the drain loop — a `SendOutcome` value:
  `permDenied` (the `perms and not perms.send_messages` test fires),
  `ok` (`channel.send` succeeds), or `fail` (an exception is raised and the
  `except` branch at lines 139-143 runs).
-/

namespace ImageScrape

/-- Result of one `requests.get` + BeautifulSoup parse of the scrape target:
either an exception (`err`), or the list of the `src` attributes of all
`<img>` elements found, in document order (`none` when the attribute is
absent). -/
inductive FetchResult where
  | err : FetchResult
  | page : List (Option String) → FetchResult

/-- Outcome of one batch-delivery attempt inside the drain loop of
`continuous_scrape_and_send` (lines 130-143). -/
inductive SendOutcome where
  | permDenied : SendOutcome
  | ok : SendOutcome
  | fail : SendOutcome
deriving DecidableEq

/-- How the drain loop of `continuous_scrape_and_send` ended.
`emptied`: the `while image_queue` condition became false;
`permStop`: the permission check fired and the coroutine returned (line 134);
`sendFailed`: an exception was caught, the batch was pushed back, the task
slept `CHECK_INTERVAL` and returned (lines 139-143);
`pending`: the supplied list of modelled send outcomes ran out while the
queue was still non-empty (the real loop would keep going). -/
inductive DrainExit where
  | emptied : DrainExit
  | permStop : DrainExit
  | sendFailed : DrainExit
  | pending : DrainExit
  | noWork : DrainExit
deriving DecidableEq

/-- The module-level state of `discord_image_bot.py` (lines 39-43) together
with the running flag of the background task. -/
structure BotState where
  sent_images : Finset String
  image_queue : List String
  page_number : Nat
  target : Option Nat
  running : Bool

/-- The URL scraped at a given `page_number` (lines 52-53):
`offset = page_number * 42`; the bare `SCRAPE_URL` when the offset is 0,
otherwise `SCRAPE_URL + "+&pid=" + offset`. -/
def pageUrl (base : String) (page_number : Nat) : String :=
  let offset := page_number * 42
  if offset = 0 then base else base ++ "+&pid=" ++ toString offset

/-- The `for img in soup.find_all("img")` loop of `scrape_new_images`
(lines 62-69): skip missing or empty `src` attributes, resolve against the
base URL, and append iff the resolved URL is in neither `sent_images` nor
`image_queue`.  Note that the membership test is against the queue as it was
before the scrape: `image_queue` is only extended after the loop. -/
def newImagesLoop (urljoin : String → String → String) (base : String)
    (sent : Finset String) (queue : List String) :
    List (Option String) → List String
  | [] => []
  | none :: rest => newImagesLoop urljoin base sent queue rest
  | some src :: rest =>
    if src = "" then newImagesLoop urljoin base sent queue rest
    else
      let full_url := urljoin base src
      if full_url ∉ sent ∧ full_url ∉ queue then
        full_url :: newImagesLoop urljoin base sent queue rest
      else
        newImagesLoop urljoin base sent queue rest

/-- `scrape_new_images` (lines 50-80).  On an exception (`FetchResult.err`)
the handler at line 79 only logs: the state is returned unchanged.  On a
fetched page, the new images are appended to the queue and the page number
resets to 0 when at least one was found; otherwise the page number is
incremented. -/
def scrape_new_images (urljoin : String → String → String) (base : String)
    (st : BotState) (fetch : FetchResult) : BotState :=
  match fetch with
  | .err => st
  | .page srcs =>
    let new_images := newImagesLoop urljoin base st.sent_images st.image_queue srcs
    if new_images ≠ [] then
      { st with image_queue := st.image_queue ++ new_images, page_number := 0 }
    else
      { st with page_number := st.page_number + 1 }

/-- The batch pop at line 127:
`batch = [image_queue.pop(0) for _ in range(min(BATCH_SIZE, len(image_queue)))]`.
`range(...)` is evaluated once, so exactly `min BATCH_SIZE (length queue)`
elements are popped from the front; returns `(batch, remaining queue)`. -/
def popBatch (bs : Nat) (queue : List String) : List String × List String :=
  let k := min bs queue.length
  (queue.take k, queue.drop k)

/-- `sent_images.update(batch)` (line 137): Python set update, i.e. union. -/
def markDelivered (sent : Finset String) (refs : List String) : Finset String :=
  sent ∪ refs.toFinset

/-- Result of the drain loop: final `sent_images`, final `image_queue`, the
successfully delivered batches in order, every batch popped for a delivery
attempt in order, and how the loop exited. -/
structure DrainResult where
  sent : Finset String
  queue : List String
  delivered : List (List String)
  attempted : List (List String)
  exit : DrainExit

/-- The `while image_queue:` drain loop of `continuous_scrape_and_send`
(lines 126-146), driven by one modelled `SendOutcome` per iteration.
`permDenied`: the popped batch is NOT pushed back — the coroutine returns at
line 134 with the batch dropped.  `fail`: `image_queue[0:0] = batch` restores
the queue and the task sleeps `CHECK_INTERVAL` and returns.  `ok`:
`sent_images.update(batch)` and the loop continues after the inter-batch
delay. -/
def drainLoop (bs : Nat) (sent : Finset String) (queue : List String) :
    List SendOutcome → DrainResult
  | [] =>
    if queue = [] then ⟨sent, queue, [], [], .emptied⟩
    else ⟨sent, queue, [], [], .pending⟩
  | out :: outs =>
    if queue = [] then ⟨sent, queue, [], [], .emptied⟩
    else
      let batch := (popBatch bs queue).1
      let rest := (popBatch bs queue).2
      match out with
      | .permDenied => ⟨sent, rest, [], [batch], .permStop⟩
      | .fail => ⟨sent, batch ++ rest, [], [batch], .sendFailed⟩
      | .ok =>
        let r := drainLoop bs (markDelivered sent batch) rest outs
        ⟨r.sent, r.queue, batch :: r.delivered, batch :: r.attempted, r.exit⟩

/-- One iteration of the `continuous_scrape_and_send` task body
(lines 117-146), after the target channel has been resolved: scrape when the
queue is empty; if the queue is still empty, sleep `CHECK_INTERVAL` and
return (`noWork`); otherwise drain.  Returns the new state, the successfully
delivered batches, and the drain exit. -/
def continuous_scrape_and_send (urljoin : String → String → String)
    (base : String) (bs : Nat) (st : BotState) (fetch : FetchResult)
    (outs : List SendOutcome) : BotState × List (List String) × DrainExit :=
  let st1 := if st.image_queue = [] then scrape_new_images urljoin base st fetch else st
  if st1.image_queue = [] then (st1, [], .noWork)
  else
    let r := drainLoop bs st1.sent_images st1.image_queue outs
    ({ st1 with sent_images := r.sent, image_queue := r.queue }, r.delivered, r.exit)

/-- The reply sent by the `/cookie` command. -/
inductive CookieResult where
  | noChannel : CookieResult
  | noPermission : CookieResult
  | retargeted : CookieResult
  | started : CookieResult
deriving DecidableEq

/-- `cookie_command` (lines 149-179).  `target_channel` is the already
resolved channel (explicit argument, else env channel, else the interaction
channel; `none` when none of these resolve).  `perms_send_messages` is
`permissions_for(...).send_messages` (`none` when the channel has no guild).
When resolution and the permission check pass, `TARGET_CHANNEL_ID` is set
unconditionally (line 174); if the task is already running the command only
reports that it is now targeting the new channel, otherwise it starts the
task. -/
def cookie_command (st : BotState) (target_channel : Option Nat)
    (perms_send_messages : Option Bool) : BotState × CookieResult :=
  match target_channel with
  | none => (st, .noChannel)
  | some cid =>
    if perms_send_messages = some false then (st, .noPermission)
    else
      let st1 := { st with target := some cid }
      if st.running then (st1, .retargeted)
      else ({ st1 with running := true }, .started)

/-- The reply sent by the `/stop` command. -/
inductive StopResult where
  | stopped : StopResult
  | notRunning : StopResult
deriving DecidableEq

/-- `stop_command` (lines 181-189): when running, stop the task and reset
`TARGET_CHANNEL_ID` to `None`; otherwise report not running.  Nothing else
is touched. -/
def stop_command (st : BotState) : BotState × StopResult :=
  if st.running then ({ st with running := false, target := none }, .stopped)
  else (st, .notRunning)

/-- `urljoin` in the special case where every `src` attribute is already an
absolute URL: `urllib.parse.urljoin(base, abs)` returns `abs` unchanged.
Used to instantiate the resolver parameter on concrete inputs. -/
def absResolve : String → String → String := fun _ src => src

/-- The union of all members of a list of batches. -/
def batchUnion (bs : List (List String)) : Finset String :=
  bs.foldr (fun b acc => b.toFinset ∪ acc) ∅

/-- Refinement target for the extraction loop, following the spec's words:
the non-empty source attributes in document order, each resolved against the
base URL, admitted iff not already in the delivered set and not already in
the pending queue. -/
def newImagesSpec (urljoin : String → String → String) (base : String)
    (sent : Finset String) (queue : List String)
    (srcs : List (Option String)) : List String :=
  (((srcs.filterMap id).filter (fun s => decide (s ≠ ""))).map (urljoin base)).filter
    (fun u => decide (u ∉ sent ∧ u ∉ queue))

/-- The resolved sources of a fetch: the non-empty `src` attributes in
document order, resolved against the base URL (empty for a failed fetch). -/
def resolvedSrcs (urljoin : String → String → String) (base : String) :
    FetchResult → List String
  | .err => []
  | .page srcs =>
    ((srcs.filterMap id).filter (fun s => decide (s ≠ ""))).map (urljoin base)

/-- One external event driving the system: a tick of the background task
(with the fetch result and per-batch delivery outcomes it encounters), a
`/cookie` command, or a `/stop` command. -/
inductive Step where
  | tick : FetchResult → List SendOutcome → Step
  | cookie : Option Nat → Option Bool → Step
  | stop : Step

/-- Run one step; returns the new state and the batches successfully
delivered during it. -/
def runStep (urljoin : String → String → String) (base : String) (bs : Nat)
    (st : BotState) : Step → BotState × List (List String)
  | .tick fetch outs =>
    let r := continuous_scrape_and_send urljoin base bs st fetch outs
    (r.1, r.2.1)
  | .cookie c p => ((cookie_command st c p).1, [])
  | .stop => ((stop_command st).1, [])

/-- Run a list of steps from a state, accumulating every successfully
delivered batch in order. -/
def runSteps (urljoin : String → String → String) (base : String) (bs : Nat)
    (st : BotState) : List Step → BotState × List (List String)
  | [] => (st, [])
  | s :: rest =>
    let r1 := runStep urljoin base bs st s
    let r2 := runSteps urljoin base bs r1.1 rest
    (r2.1, r1.2 ++ r2.2)

/-- Side condition on a step: the page fetched during a tick lists each
resolved reference at most once. -/
def stepNodup (urljoin : String → String → String) (base : String) :
    Step → Prop
  | .tick fetch _ => (resolvedSrcs urljoin base fetch).Nodup
  | .cookie _ _ => True
  | .stop => True

instance stepNodupDecidable (urljoin : String → String → String)
    (base : String) : (s : Step) → Decidable (stepNodup urljoin base s)
  | .tick fetch _ =>
    inferInstanceAs (Decidable (List.Nodup (resolvedSrcs urljoin base fetch)))
  | .cookie _ _ => inferInstanceAs (Decidable True)
  | .stop => inferInstanceAs (Decidable True)

/-! ### Helper lemmas about the drain loop -/

theorem drainLoop_sent_eq (bs : Nat) :
    ∀ (outs : List SendOutcome) (sent : Finset String) (queue : List String),
      (drainLoop bs sent queue outs).sent
        = sent ∪ batchUnion (drainLoop bs sent queue outs).delivered
  | [], sent, queue => by
    simp only [drainLoop]
    split <;> simp [batchUnion]
  | out :: outs, sent, queue => by
    simp only [drainLoop]
    split
    · simp [batchUnion]
    · match out with
      | .permDenied => simp [batchUnion]
      | .fail => simp [batchUnion]
      | .ok =>
        simp only [batchUnion, List.foldr_cons]
        rw [drainLoop_sent_eq bs outs, markDelivered, Finset.union_assoc]
        rfl

theorem drainLoop_attempted_len (bs : Nat) (hbs : 1 ≤ bs) :
    ∀ (outs : List SendOutcome) (sent : Finset String) (queue : List String),
      ∀ b ∈ (drainLoop bs sent queue outs).attempted,
        1 ≤ b.length ∧ b.length ≤ bs
  | [], sent, queue => by
    simp only [drainLoop]
    split <;> simp
  | out :: outs, sent, queue => by
    simp only [drainLoop]
    split
    · simp
    · next hq =>
      have hpos : 0 < queue.length := List.length_pos.mpr hq
      have hlen : (popBatch bs queue).1.length = min bs queue.length := by
        simp [popBatch, List.length_take]
      have h1 : 1 ≤ (popBatch bs queue).1.length := by
        rw [hlen]; exact le_min hbs hpos
      have h2 : (popBatch bs queue).1.length ≤ bs := by
        rw [hlen]; exact min_le_left ..
      match out with
      | .permDenied => intro b hb; simp at hb; subst hb; exact ⟨h1, h2⟩
      | .fail => intro b hb; simp at hb; subst hb; exact ⟨h1, h2⟩
      | .ok =>
        intro b hb
        simp only [List.mem_cons] at hb
        rcases hb with rfl | hb
        · exact ⟨h1, h2⟩
        · exact drainLoop_attempted_len bs hbs outs _ _ b hb

/-! ### Claim theorems -/

/-- Claim C6: the scrape target URL is the base URL unmodified when the
cursor is 0, and otherwise the base URL with the pagination suffix carrying
offset `cursor * 42`; in particular cursor 1 targets offset 42. -/
theorem page_url_spec (base : String) (c : Nat) :
    pageUrl base c = (if c = 0 then base else base ++ "+&pid=" ++ toString (c * 42)) ∧
    pageUrl "u" 1 = "u+&pid=42" := by
  constructor
  · unfold pageUrl
    by_cases h : c = 0
    · subst h; simp
    · have h42 : c * 42 ≠ 0 := Nat.mul_ne_zero h (by decide)
      simp [h, h42]
  · decide

/-- Claim C9: `MarkDelivered` (`sent_images.update`) is idempotent — marking
two overlapping collections yields the plain set union with no duplicated
entries, and marking the same collection twice equals marking it once. -/
theorem mark_delivered_idempotent (s : Finset String) (b1 b2 b : List String) :
    markDelivered (markDelivered s b1) b2 = s ∪ (b1.toFinset ∪ b2.toFinset) ∧
    markDelivered (markDelivered s b) b = markDelivered s b := by
  unfold markDelivered
  refine ⟨Finset.union_assoc .., ?_⟩
  rw [Finset.union_assoc, Finset.union_self]

/-- Claim C4: every batch popped for a delivery attempt is exactly the first
`min (batch size) (queue length)` references removed from the front of the
queue in FIFO order and has size at least 1; the scenario
`queue = [a,b,c,d,e,f]`, batch size 5 yields batches `[a,b,c,d,e]` then
`[f]`. -/
theorem batch_pop_spec (bs : Nat) (hbs : 1 ≤ bs) (sent : Finset String)
    (queue : List String) (outs : List SendOutcome) :
    (queue ≠ [] →
      (popBatch bs queue).1 = queue.take (min bs queue.length) ∧
      (popBatch bs queue).2 = queue.drop (min bs queue.length) ∧
      (popBatch bs queue).1 ++ (popBatch bs queue).2 = queue ∧
      (popBatch bs queue).1.length = min bs queue.length ∧
      1 ≤ (popBatch bs queue).1.length) ∧
    (∀ b ∈ (drainLoop bs sent queue outs).attempted, 1 ≤ b.length ∧ b.length ≤ bs) ∧
    (drainLoop 5 ∅ ["a", "b", "c", "d", "e", "f"] [.ok, .ok]).attempted
      = [["a", "b", "c", "d", "e"], ["f"]] ∧
    (drainLoop 5 ∅ ["a", "b", "c", "d", "e", "f"] [.ok, .ok]).delivered
      = [["a", "b", "c", "d", "e"], ["f"]] := by
  refine ⟨?_, drainLoop_attempted_len bs hbs outs sent queue, by decide, by decide⟩
  intro hq
  have hpos : 0 < queue.length := List.length_pos.mpr hq
  refine ⟨rfl, rfl, List.take_append_drop .., by simp [popBatch, List.length_take], ?_⟩
  simp only [popBatch, List.length_take, min_assoc, min_self]
  exact le_min hbs hpos

theorem batch_pop_spec_witness :
    (popBatch 5 ["a", "b", "c", "d", "e", "f"]).1 = ["a", "b", "c", "d", "e"] ∧
    (popBatch 5 ["a", "b", "c", "d", "e", "f"]).1.length = min 5 6 := by
  have h := batch_pop_spec 5 (by decide) ∅ ["a", "b", "c", "d", "e", "f"] [.ok, .ok]
  have h1 := h.1 (by decide)
  exact ⟨by decide, by simpa using h1.2.2.2.1⟩

/-- Claim C5: the delivered set only grows; it changes only by unioning in a
successfully delivered batch (`sent_images.update(batch)` after
`channel.send` succeeds), so after a failed or permission-denied delivery it
is exactly unchanged, and scraping, `/stop` and `/cookie` never touch it. -/
theorem delivered_set_monotone (urljoin : String → String → String)
    (base : String) (bs : Nat) (st : BotState) (fetch : FetchResult)
    (sent : Finset String) (queue : List String) (outs : List SendOutcome)
    (c : Option Nat) (p : Option Bool) :
    sent ⊆ (drainLoop bs sent queue outs).sent ∧
    (drainLoop bs sent queue outs).sent
      = sent ∪ batchUnion (drainLoop bs sent queue outs).delivered ∧
    (drainLoop bs sent queue (.fail :: outs)).sent = sent ∧
    (drainLoop bs sent queue (.permDenied :: outs)).sent = sent ∧
    (scrape_new_images urljoin base st fetch).sent_images = st.sent_images ∧
    (stop_command st).1.sent_images = st.sent_images ∧
    (cookie_command st c p).1.sent_images = st.sent_images := by
  refine ⟨?_, drainLoop_sent_eq bs outs sent queue, ?_, ?_, ?_, ?_, ?_⟩
  · rw [drainLoop_sent_eq bs outs sent queue]
    exact Finset.subset_union_left
  · simp only [drainLoop]; split <;> rfl
  · simp only [drainLoop]; split <;> rfl
  · cases fetch with
    | err => rfl
    | page srcs => simp only [scrape_new_images]; split <;> rfl
  · simp only [stop_command]; split <;> rfl
  · cases c with
    | none => rfl
    | some cid => simp only [cookie_command]; split <;> [rfl; skip]; split <;> rfl

theorem newImagesLoop_eq_spec (urljoin : String → String → String)
    (base : String) (sent : Finset String) (queue : List String) :
    ∀ srcs : List (Option String),
      newImagesLoop urljoin base sent queue srcs
        = newImagesSpec urljoin base sent queue srcs
  | [] => rfl
  | none :: rest => by
    simpa [newImagesLoop, newImagesSpec] using
      newImagesLoop_eq_spec urljoin base sent queue rest
  | some src :: rest => by
    have ih := newImagesLoop_eq_spec urljoin base sent queue rest
    by_cases hsrc : src = ""
    · simpa [newImagesLoop, newImagesSpec, hsrc] using ih
    · by_cases hadm : urljoin base src ∉ sent ∧ urljoin base src ∉ queue
      · simpa [newImagesLoop, newImagesSpec, hsrc, hadm] using ih
      · simpa [newImagesLoop, newImagesSpec, hsrc, hadm] using ih

/-- Claim C7: for a successfully fetched page, the references appended to
the pending queue are exactly the non-empty `src` attributes of the page's
`<img>` tags, in document order, resolved against the base URL, and admitted
iff not already in the delivered set and not already in the pending queue
(as it was when the scrape started); the delivered set is untouched. -/
theorem scrape_admission_spec (urljoin : String → String → String)
    (base : String) (st : BotState) (srcs : List (Option String)) :
    (scrape_new_images urljoin base st (.page srcs)).image_queue
      = st.image_queue ++ newImagesSpec urljoin base st.sent_images st.image_queue srcs ∧
    (scrape_new_images urljoin base st (.page srcs)).sent_images
      = st.sent_images := by
  constructor
  · simp only [scrape_new_images, ← newImagesLoop_eq_spec]
    split
    · rfl
    · next h =>
      simp only [ne_eq, not_not] at h
      rw [h, List.append_nil]
  · simp only [scrape_new_images]; split <;> rfl

/-- Claim C3 (counterexample): a scrape cycle that ends in a fetch error
leaves the cursor unchanged (here 3), not incremented to 4 as the claim
requires for a zero-new-reference cycle. -/
theorem error_cycle_keeps_cursor :
    (scrape_new_images absResolve "b" ⟨∅, [], 3, none, true⟩ .err).page_number = 3 ∧
    (scrape_new_images absResolve "b" ⟨∅, [], 3, none, true⟩ .err).page_number ≠ 3 + 1 := by
  decide

/-- Claim C3 (amended): after a successfully fetched page the cursor is 0
when the cycle yielded at least one new reference and old value + 1 when it
yielded none; a cycle ending in a fetch/parse error leaves the cursor
exactly unchanged (the exception handler only logs). -/
theorem cursor_update_rule (urljoin : String → String → String)
    (base : String) (st : BotState) (srcs : List (Option String)) :
    (scrape_new_images urljoin base st .err).page_number = st.page_number ∧
    (newImagesLoop urljoin base st.sent_images st.image_queue srcs ≠ [] →
      (scrape_new_images urljoin base st (.page srcs)).page_number = 0) ∧
    (newImagesLoop urljoin base st.sent_images st.image_queue srcs = [] →
      (scrape_new_images urljoin base st (.page srcs)).page_number
        = st.page_number + 1) := by
  refine ⟨rfl, ?_, ?_⟩
  · intro h; simp [scrape_new_images, h]
  · intro h; simp [scrape_new_images, h]

theorem cursor_update_rule_witness :
    (scrape_new_images absResolve "b" ⟨∅, [], 3, none, true⟩
        (.page [some "u"])).page_number = 0 ∧
    (scrape_new_images absResolve "b" ⟨∅, [], 3, none, true⟩
        (.page [none])).page_number = 3 + 1 :=
  ⟨(cursor_update_rule absResolve "b" ⟨∅, [], 3, none, true⟩ [some "u"]).2.1
      (by decide),
    (cursor_update_rule absResolve "b" ⟨∅, [], 3, none, true⟩ [none]).2.2
      (by decide)⟩

/-- Claim C1 (counterexample): when the lack-of-permission precondition
fires, the popped batch `["x", "y"]` is NOT re-inserted — the queue is left
empty and the coroutine returns without backing off (exit `permStop`, not
the sleeping `sendFailed` path). -/
theorem permission_denied_drops_batch :
    (drainLoop 5 ∅ ["x", "y"] [.permDenied]).queue = [] ∧
    "x" ∉ (drainLoop 5 ∅ ["x", "y"] [.permDenied]).queue ∧
    (drainLoop 5 ∅ ["x", "y"] [.permDenied]).sent = ∅ ∧
    (drainLoop 5 ∅ ["x", "y"] [.permDenied]).exit = .permStop := by
  decide

/-- Claim C1 (amended): when a delivery attempt raises an exception, the
whole batch is re-inserted at the front of the queue in its original
relative order (restoring the queue exactly), the delivered set is
unchanged, and the instance backs off (sleeps the cycle delay and returns);
when instead the lack-of-permission precondition is detected, the popped
batch is dropped from the queue without delivery or re-insertion, the
delivered set is unchanged, and the loop returns without backing off. -/
theorem drain_failure_behavior (bs : Nat) (sent : Finset String)
    (queue : List String) (outs : List SendOutcome) (hq : queue ≠ []) :
    ((drainLoop bs sent queue (.fail :: outs)).queue = queue ∧
      (drainLoop bs sent queue (.fail :: outs)).sent = sent ∧
      (drainLoop bs sent queue (.fail :: outs)).delivered = [] ∧
      (drainLoop bs sent queue (.fail :: outs)).exit = .sendFailed) ∧
    ((drainLoop bs sent queue (.permDenied :: outs)).queue
        = queue.drop (min bs queue.length) ∧
      (drainLoop bs sent queue (.permDenied :: outs)).sent = sent ∧
      (drainLoop bs sent queue (.permDenied :: outs)).delivered = [] ∧
      (drainLoop bs sent queue (.permDenied :: outs)).exit = .permStop) := by
  constructor
  · simp only [drainLoop, if_neg hq]
    simp [popBatch, List.take_append_drop]
  · simp only [drainLoop, if_neg hq]
    simp [popBatch]

theorem drain_failure_behavior_witness :
    (drainLoop 5 ∅ ["x", "y"] [.fail]).queue = ["x", "y"] ∧
    (drainLoop 5 ∅ ["x", "y"] [.fail]).exit = .sendFailed :=
  ⟨(drain_failure_behavior 5 ∅ ["x", "y"] [] (by decide)).1.1,
    (drain_failure_behavior 5 ∅ ["x", "y"] [] (by decide)).1.2.2.2⟩

/-- Claim C8 (counterexample): with the task already running and targeting
channel 1, a second `/cookie` call for channel 2 does not fail — it
retargets the running instance: afterwards the target is channel 2, no
longer channel 1. -/
theorem second_start_retargets :
    (cookie_command ⟨∅, [], 0, some 1, true⟩ (some 2) (some true)).2
      = .retargeted ∧
    (cookie_command ⟨∅, [], 0, some 1, true⟩ (some 2) (some true)).1.target
      = some 2 ∧
    (cookie_command ⟨∅, [], 0, some 1, true⟩ (some 2) (some true)).1.target
      ≠ some 1 := by
  decide

/-- Claim C8 (amended): a `/cookie` call while the task is already running
(with a resolvable channel and no permission denial) does not fail: it
reports already-running and retargets the instance to the new channel; the
delivered set, pending queue, page cursor and running flag are unchanged —
only the target channel changes. -/
theorem start_while_running_behavior (st : BotState) (cid : Nat)
    (p : Option Bool) (hrun : st.running = true) (hp : p ≠ some false) :
    (cookie_command st (some cid) p).2 = .retargeted ∧
    (cookie_command st (some cid) p).1.target = some cid ∧
    (cookie_command st (some cid) p).1.sent_images = st.sent_images ∧
    (cookie_command st (some cid) p).1.image_queue = st.image_queue ∧
    (cookie_command st (some cid) p).1.page_number = st.page_number ∧
    (cookie_command st (some cid) p).1.running = true := by
  simp [cookie_command, if_neg hp, hrun]

/-! ### Invariant machinery: the queue never duplicates a reference and is
disjoint from the delivered set, provided each fetched page lists each
resolved reference at most once -/

theorem newImagesSpec_eq_filter (urljoin : String → String → String)
    (base : String) (sent : Finset String) (queue : List String)
    (srcs : List (Option String)) :
    newImagesSpec urljoin base sent queue srcs
      = (resolvedSrcs urljoin base (.page srcs)).filter
          (fun u => decide (u ∉ sent ∧ u ∉ queue)) := rfl

theorem mem_newImagesLoop (urljoin : String → String → String) (base : String)
    (sent : Finset String) (queue : List String) :
    ∀ (srcs : List (Option String)) (x : String),
      x ∈ newImagesLoop urljoin base sent queue srcs → x ∉ sent ∧ x ∉ queue
  | [], x => by simp [newImagesLoop]
  | none :: rest, x => by
    simpa [newImagesLoop] using mem_newImagesLoop urljoin base sent queue rest x
  | some src :: rest, x => by
    have ih := mem_newImagesLoop urljoin base sent queue rest x
    by_cases hsrc : src = ""
    · simpa [newImagesLoop, hsrc] using ih
    · by_cases hadm : urljoin base src ∉ sent ∧ urljoin base src ∉ queue
      · intro hx
        simp only [newImagesLoop, if_neg hsrc, if_pos hadm, List.mem_cons] at hx
        rcases hx with rfl | hx
        · exact hadm
        · exact ih hx
      · intro hx
        simp only [newImagesLoop, if_neg hsrc, if_neg hadm] at hx
        exact ih hx

theorem scrape_sent_eq (urljoin : String → String → String) (base : String)
    (st : BotState) (fetch : FetchResult) :
    (scrape_new_images urljoin base st fetch).sent_images = st.sent_images := by
  cases fetch with
  | err => rfl
  | page srcs => simp only [scrape_new_images]; split <;> rfl

theorem scrape_inv (urljoin : String → String → String) (base : String)
    (st : BotState) (fetch : FetchResult)
    (hnd : st.image_queue.Nodup)
    (hdisj : ∀ x ∈ st.image_queue, x ∉ st.sent_images)
    (hpage : (resolvedSrcs urljoin base fetch).Nodup) :
    (scrape_new_images urljoin base st fetch).image_queue.Nodup ∧
    ∀ x ∈ (scrape_new_images urljoin base st fetch).image_queue,
      x ∉ (scrape_new_images urljoin base st fetch).sent_images := by
  cases fetch with
  | err => exact ⟨hnd, hdisj⟩
  | page srcs =>
    have hnodupNew :
        (newImagesLoop urljoin base st.sent_images st.image_queue srcs).Nodup := by
      rw [newImagesLoop_eq_spec, newImagesSpec_eq_filter]
      exact hpage.filter _
    have hmem := fun x hx =>
      mem_newImagesLoop urljoin base st.sent_images st.image_queue srcs x hx
    simp only [scrape_new_images]
    split
    · refine ⟨hnd.append hnodupNew (fun x hx1 hx2 => (hmem x hx2).2 hx1), ?_⟩
      intro x hx
      rcases List.mem_append.mp hx with h | h
      · exact hdisj x h
      · exact (hmem x h).1
    · exact ⟨hnd, hdisj⟩

theorem batchUnion_append :
    ∀ l1 l2 : List (List String),
      batchUnion (l1 ++ l2) = batchUnion l1 ∪ batchUnion l2
  | [], l2 => by simp [batchUnion]
  | b :: l1, l2 => by
    show b.toFinset ∪ batchUnion (l1 ++ l2)
      = (b.toFinset ∪ batchUnion l1) ∪ batchUnion l2
    rw [batchUnion_append l1 l2, Finset.union_assoc]

theorem mem_batchUnion {x : String} :
    ∀ {ds : List (List String)} {b : List String},
      b ∈ ds → x ∈ b → x ∈ batchUnion ds
  | [], b, hb, _ => absurd hb (List.not_mem_nil b)
  | d :: ds, b, hb, hx => by
    rcases List.mem_cons.mp hb with rfl | hb'
    · exact Finset.mem_union_left _ (List.mem_toFinset.mpr hx)
    · exact Finset.mem_union_right _ (mem_batchUnion hb' hx)

theorem drainLoop_inv (bs : Nat) :
    ∀ (outs : List SendOutcome) (sent : Finset String) (queue : List String),
      queue.Nodup → (∀ x ∈ queue, x ∉ sent) →
      ((drainLoop bs sent queue outs).queue.Nodup ∧
        (∀ x ∈ (drainLoop bs sent queue outs).queue,
          x ∉ (drainLoop bs sent queue outs).sent) ∧
        (∀ b ∈ (drainLoop bs sent queue outs).delivered, b.Nodup) ∧
        (∀ b ∈ (drainLoop bs sent queue outs).delivered, ∀ x ∈ b, x ∉ sent) ∧
        List.Pairwise (fun b1 b2 => ∀ x ∈ b1, x ∉ b2)
          (drainLoop bs sent queue outs).delivered)
  | [], sent, queue => by
    intro hnd hdisj
    simp only [drainLoop]
    split <;> exact ⟨hnd, hdisj, by simp, by simp, by simp⟩
  | out :: outs, sent, queue => by
    intro hnd hdisj
    simp only [drainLoop, popBatch]
    split
    · exact ⟨hnd, hdisj, by simp, by simp, by simp⟩
    · have hsplit :
          queue.take (min bs queue.length) ++ queue.drop (min bs queue.length)
            = queue := List.take_append_drop ..
      have hbnd : (queue.take (min bs queue.length)).Nodup :=
        hnd.sublist (List.take_sublist ..)
      have hrnd : (queue.drop (min bs queue.length)).Nodup :=
        hnd.sublist (List.drop_sublist ..)
      have hdisjbr :
          (queue.take (min bs queue.length)).Disjoint
            (queue.drop (min bs queue.length)) := by
        apply List.disjoint_of_nodup_append
        rw [hsplit]; exact hnd
      match out with
      | .permDenied =>
        refine ⟨hrnd, ?_, by simp, by simp, by simp⟩
        intro x hx
        exact hdisj x (List.mem_of_mem_drop hx)
      | .fail =>
        refine ⟨?_, ?_, by simp, by simp, by simp⟩
        · rw [hsplit]; exact hnd
        · rw [hsplit]; exact hdisj
      | .ok =>
        have hdisjRest : ∀ x ∈ queue.drop (min bs queue.length),
            x ∉ markDelivered sent (queue.take (min bs queue.length)) := by
          intro x hx
          simp only [markDelivered, Finset.mem_union, List.mem_toFinset]
          push_neg
          exact ⟨hdisj x (List.mem_of_mem_drop hx), fun hxb => hdisjbr hxb hx⟩
        have IH := drainLoop_inv bs outs
          (markDelivered sent (queue.take (min bs queue.length)))
          (queue.drop (min bs queue.length)) hrnd hdisjRest
        refine ⟨IH.1, IH.2.1, ?_, ?_, ?_⟩
        · intro b hb
          rcases List.mem_cons.mp hb with rfl | hb'
          · exact hbnd
          · exact IH.2.2.1 b hb'
        · intro b hb x hxb
          rcases List.mem_cons.mp hb with rfl | hb'
          · exact hdisj x (List.mem_of_mem_take hxb)
          · intro hxs
            exact IH.2.2.2.1 b hb' x hxb (Finset.mem_union_left _ hxs)
        · rw [List.pairwise_cons]
          refine ⟨?_, IH.2.2.2.2⟩
          intro b hb x hxbatch hxb
          exact IH.2.2.2.1 b hb x hxb
            (Finset.mem_union_right _ (List.mem_toFinset.mpr hxbatch))

theorem cookie_command_frame (st : BotState) (c : Option Nat)
    (p : Option Bool) :
    (cookie_command st c p).1.sent_images = st.sent_images ∧
    (cookie_command st c p).1.image_queue = st.image_queue ∧
    (cookie_command st c p).1.page_number = st.page_number := by
  cases c with
  | none => exact ⟨rfl, rfl, rfl⟩
  | some cid =>
    simp only [cookie_command]
    split
    · exact ⟨rfl, rfl, rfl⟩
    · split <;> exact ⟨rfl, rfl, rfl⟩

theorem stop_command_frame (st : BotState) :
    (stop_command st).1.sent_images = st.sent_images ∧
    (stop_command st).1.image_queue = st.image_queue ∧
    (stop_command st).1.page_number = st.page_number := by
  simp only [stop_command]
  split <;> exact ⟨rfl, rfl, rfl⟩

theorem runStep_inv (u : String → String → String) (base : String) (bs : Nat)
    (st : BotState) (s : Step)
    (hnd : st.image_queue.Nodup)
    (hdisj : ∀ x ∈ st.image_queue, x ∉ st.sent_images)
    (hs : stepNodup u base s) :
    (runStep u base bs st s).1.image_queue.Nodup ∧
    (∀ x ∈ (runStep u base bs st s).1.image_queue,
      x ∉ (runStep u base bs st s).1.sent_images) ∧
    (∀ b ∈ (runStep u base bs st s).2, b.Nodup) ∧
    (∀ b ∈ (runStep u base bs st s).2, ∀ x ∈ b, x ∉ st.sent_images) ∧
    List.Pairwise (fun b1 b2 => ∀ x ∈ b1, x ∉ b2) (runStep u base bs st s).2 ∧
    (runStep u base bs st s).1.sent_images
      = st.sent_images ∪ batchUnion (runStep u base bs st s).2 := by
  match s with
  | .cookie c p =>
    have hf := cookie_command_frame st c p
    simp only [runStep]
    refine ⟨?_, ?_, by simp, by simp, by simp, by simp [batchUnion, hf.1]⟩
    · rw [hf.2.1]; exact hnd
    · rw [hf.2.1, hf.1]; exact hdisj
  | .stop =>
    have hf := stop_command_frame st
    simp only [runStep]
    refine ⟨?_, ?_, by simp, by simp, by simp, by simp [batchUnion, hf.1]⟩
    · rw [hf.2.1]; exact hnd
    · rw [hf.2.1, hf.1]; exact hdisj
  | .tick fetch outs =>
    have hpage : (resolvedSrcs u base fetch).Nodup := hs
    by_cases hqe : st.image_queue = []
    · have hsc := scrape_inv u base st fetch hnd hdisj hpage
      have hse := scrape_sent_eq u base st fetch
      by_cases hq1 : (scrape_new_images u base st fetch).image_queue = []
      · simp only [runStep, continuous_scrape_and_send, if_pos hqe, if_pos hq1]
        exact ⟨hsc.1, hsc.2, by simp, by simp, by simp, by simp [batchUnion, hse]⟩
      · have hdr := drainLoop_inv bs outs
          (scrape_new_images u base st fetch).sent_images
          (scrape_new_images u base st fetch).image_queue hsc.1 hsc.2
        have hds := drainLoop_sent_eq bs outs
          (scrape_new_images u base st fetch).sent_images
          (scrape_new_images u base st fetch).image_queue
        simp only [runStep, continuous_scrape_and_send, if_pos hqe, if_neg hq1]
        refine ⟨hdr.1, hdr.2.1, hdr.2.2.1, ?_, hdr.2.2.2.2, ?_⟩
        · rw [← hse]; exact hdr.2.2.2.1
        · rw [hds, hse]
    · have hdr := drainLoop_inv bs outs st.sent_images st.image_queue hnd hdisj
      have hds := drainLoop_sent_eq bs outs st.sent_images st.image_queue
      simp only [runStep, continuous_scrape_and_send, if_neg hqe, if_neg hqe]
      exact ⟨hdr.1, hdr.2.1, hdr.2.2.1, hdr.2.2.2.1, hdr.2.2.2.2, hds⟩

theorem runSteps_inv (u : String → String → String) (base : String) (bs : Nat) :
    ∀ (steps : List Step) (st : BotState),
      st.image_queue.Nodup → (∀ x ∈ st.image_queue, x ∉ st.sent_images) →
      (∀ s ∈ steps, stepNodup u base s) →
      ((runSteps u base bs st steps).1.image_queue.Nodup ∧
        (∀ x ∈ (runSteps u base bs st steps).1.image_queue,
          x ∉ (runSteps u base bs st steps).1.sent_images) ∧
        (∀ b ∈ (runSteps u base bs st steps).2, b.Nodup) ∧
        (∀ b ∈ (runSteps u base bs st steps).2, ∀ x ∈ b, x ∉ st.sent_images) ∧
        List.Pairwise (fun b1 b2 => ∀ x ∈ b1, x ∉ b2)
          (runSteps u base bs st steps).2 ∧
        (runSteps u base bs st steps).1.sent_images
          = st.sent_images ∪ batchUnion (runSteps u base bs st steps).2)
  | [], st => fun hnd hdisj _ =>
    ⟨hnd, hdisj, by simp [runSteps], by simp [runSteps], by simp [runSteps],
      by simp [runSteps, batchUnion]⟩
  | s :: rest, st => fun hnd hdisj hsteps => by
    have hstep := runStep_inv u base bs st s hnd hdisj (hsteps s (by simp))
    have IH := runSteps_inv u base bs rest (runStep u base bs st s).1
      hstep.1 hstep.2.1 (fun s' hs' => hsteps s' (List.mem_cons_of_mem _ hs'))
    simp only [runSteps]
    refine ⟨IH.1, IH.2.1, ?_, ?_, ?_, ?_⟩
    · intro b hb
      rcases List.mem_append.mp hb with h | h
      exacts [hstep.2.2.1 b h, IH.2.2.1 b h]
    · intro b hb x hxb
      rcases List.mem_append.mp hb with h | h
      · exact hstep.2.2.2.1 b h x hxb
      · intro hxs
        exact IH.2.2.2.1 b h x hxb
          (by rw [hstep.2.2.2.2.2]; exact Finset.mem_union_left _ hxs)
    · rw [List.pairwise_append]
      refine ⟨hstep.2.2.2.2.1, IH.2.2.2.2.1, ?_⟩
      intro b1 hb1 b2 hb2 x hx1 hx2
      exact IH.2.2.2.1 b2 hb2 x hx2
        (by rw [hstep.2.2.2.2.2]
            exact Finset.mem_union_right _ (mem_batchUnion hb1 hx1))
    · rw [IH.2.2.2.2.2, hstep.2.2.2.2.2, batchUnion_append, Finset.union_assoc]

theorem countP_le_one_of_pairwise (x : String) :
    ∀ ds : List (List String),
      List.Pairwise (fun b1 b2 => ∀ y ∈ b1, y ∉ b2) ds →
      ds.countP (fun b => decide (x ∈ b)) ≤ 1
  | [], _ => by simp
  | b :: ds, h => by
    rw [List.pairwise_cons] at h
    rw [List.countP_cons]
    by_cases hx : x ∈ b
    · have hzero : ds.countP (fun b2 => decide (x ∈ b2)) = 0 :=
        List.countP_eq_zero.mpr (fun b2 hb2 => by
          simp only [decide_eq_true_eq]
          exact h.1 b2 hb2 x hx)
      simp [hzero, hx]
    · simp only [hx, decide_False, if_false, add_zero]
      exact countP_le_one_of_pairwise x ds h.2

theorem start_while_running_behavior_witness :
    (cookie_command ⟨∅, ["q"], 7, some 5, true⟩ (some 9) none).1.page_number = 7 ∧
    (cookie_command ⟨∅, ["q"], 7, some 5, true⟩ (some 9) none).2 = .retargeted :=
  ⟨(start_while_running_behavior ⟨∅, ["q"], 7, some 5, true⟩ 9 none rfl
      (by decide)).2.2.2.2.1,
    (start_while_running_behavior ⟨∅, ["q"], 7, some 5, true⟩ 9 none rfl
      (by decide)).1⟩

/-- Claim C2 (counterexample): when the same absolute reference occurs twice
in one fetched page, both occurrences are admitted (the admission check
consults `image_queue` as it was before the scrape, not the list being
built), and with batch size 1 the reference is then a member of two
successfully delivered batches. -/
theorem duplicate_in_page_delivered_twice :
    (runSteps absResolve "b" 1 ⟨∅, [], 0, some 1, true⟩
        [.tick (.page [some "http://h/a.png", some "http://h/a.png"])
          [.ok, .ok]]).2
      = [["http://h/a.png"], ["http://h/a.png"]] ∧
    ¬((runSteps absResolve "b" 1 ⟨∅, [], 0, some 1, true⟩
        [.tick (.page [some "http://h/a.png", some "http://h/a.png"])
          [.ok, .ok]]).2.countP
        (fun b => decide ("http://h/a.png" ∈ b)) ≤ 1) := by
  decide

/-- Claim C2 (amended): a reference already in the delivered set or already
in the pending queue is never admitted again by a scrape, and provided every
fetched page lists each resolved reference at most once, every reference is
a member of at most one successfully delivered batch over the instance's
lifetime (for any interleaving of ticks, `/cookie` and `/stop` commands from
a state whose queue is duplicate-free and disjoint from the delivered set).
When the same reference occurs several times in one fetched page, each
occurrence is admitted separately and the reference can be delivered once
per occurrence. -/
theorem at_most_once_delivery (u : String → String → String) (base : String)
    (bs : Nat) (steps : List Step) (st : BotState) (x r : String)
    (srcs : List (Option String))
    (hnd : st.image_queue.Nodup)
    (hdisj : ∀ y ∈ st.image_queue, y ∉ st.sent_images)
    (hpages : ∀ s ∈ steps, stepNodup u base s)
    (hr : r ∈ st.sent_images ∨ r ∈ st.image_queue) :
    (runSteps u base bs st steps).2.countP (fun b => decide (x ∈ b)) ≤ 1 ∧
    r ∉ newImagesLoop u base st.sent_images st.image_queue srcs := by
  constructor
  · exact countP_le_one_of_pairwise x _
      (runSteps_inv u base bs steps st hnd hdisj hpages).2.2.2.2.1
  · intro hmem
    rcases hr with h | h
    · exact (mem_newImagesLoop u base st.sent_images st.image_queue srcs
        r hmem).1 h
    · exact (mem_newImagesLoop u base st.sent_images st.image_queue srcs
        r hmem).2 h

theorem at_most_once_delivery_witness :
    (runSteps absResolve "b" 2 ⟨{"d"}, ["q"], 0, some 1, true⟩
        [.tick (.page [some "d", some "q", some "n"]) [.ok]]).2.countP
      (fun b => decide ("n" ∈ b)) ≤ 1 ∧
    "d" ∉ newImagesLoop absResolve "b" {"d"} ["q"]
        [some "d", some "q", some "n"] :=
  at_most_once_delivery absResolve "b" 2
    [.tick (.page [some "d", some "q", some "n"]) [.ok]]
    ⟨{"d"}, ["q"], 0, some 1, true⟩ "n" "d" [some "d", some "q", some "n"]
    (by decide) (by decide) (by decide) (by decide)

/-- Claim C10 (counterexample): a reference delivered before a `/stop` can
be re-sent after a later `/cookie` restart when a duplicate occurrence of it
was still sitting in the pending queue at stop time: here
`"http://h/a.png"` is delivered once before the stop and once after the
restart, and the state right after the stop really has `running = false`. -/
theorem resend_after_stop_start :
    (runSteps absResolve "b" 1 ⟨∅, [], 0, some 1, true⟩
        [.tick (.page [some "http://h/a.png", some "http://h/a.png"])
          [.ok, .fail]]).2
      = [["http://h/a.png"]] ∧
    (runSteps absResolve "b" 1 ⟨∅, [], 0, some 1, true⟩
        [.tick (.page [some "http://h/a.png", some "http://h/a.png"])
          [.ok, .fail],
          .stop, .cookie (some 1) (some true), .tick .err [.ok]]).2
      = [["http://h/a.png"], ["http://h/a.png"]] ∧
    (runSteps absResolve "b" 1 ⟨∅, [], 0, some 1, true⟩
        [.tick (.page [some "http://h/a.png", some "http://h/a.png"])
          [.ok, .fail],
          .stop]).1.running = false := by
  decide

/-- Claim C10 (amended): `/stop` on a running instance mutates only the
running flag and the target channel (reset to none): the delivered set, the
pending queue and the page cursor keep their exact values, and a reference
in the delivered set at stop time is never again admitted to the queue by a
scrape; however a duplicate occurrence of such a reference already sitting
in the pending queue at stop time can still be sent after a restart. -/
theorem stop_frame_property (st : BotState)
    (u : String → String → String) (base : String)
    (srcs : List (Option String)) (r : String)
    (hrun : st.running = true) (hr : r ∈ st.sent_images) :
    (stop_command st).1.sent_images = st.sent_images ∧
    (stop_command st).1.image_queue = st.image_queue ∧
    (stop_command st).1.page_number = st.page_number ∧
    (stop_command st).1.running = false ∧
    (stop_command st).1.target = none ∧
    (stop_command st).2 = .stopped ∧
    r ∉ newImagesLoop u base (stop_command st).1.sent_images
        (stop_command st).1.image_queue srcs := by
  have hf := stop_command_frame st
  refine ⟨hf.1, hf.2.1, hf.2.2, ?_, ?_, ?_, ?_⟩
  · simp [stop_command, hrun]
  · simp [stop_command, hrun]
  · simp [stop_command, hrun]
  · rw [hf.1, hf.2.1]
    intro hmem
    exact (mem_newImagesLoop u base st.sent_images st.image_queue srcs
      r hmem).1 hr

theorem stop_frame_property_witness :
    (stop_command ⟨{"d"}, ["q"], 2, some 3, true⟩).1.page_number = 2 ∧
    (stop_command ⟨{"d"}, ["q"], 2, some 3, true⟩).1.target = none ∧
    "d" ∉ newImagesLoop absResolve "b"
        (stop_command ⟨{"d"}, ["q"], 2, some 3, true⟩).1.sent_images
        (stop_command ⟨{"d"}, ["q"], 2, some 3, true⟩).1.image_queue
        [some "d"] :=
  ⟨(stop_frame_property ⟨{"d"}, ["q"], 2, some 3, true⟩ absResolve "b"
      [some "d"] "d" rfl (by decide)).2.2.1,
    (stop_frame_property ⟨{"d"}, ["q"], 2, some 3, true⟩ absResolve "b"
      [some "d"] "d" rfl (by decide)).2.2.2.2.1,
    (stop_frame_property ⟨{"d"}, ["q"], 2, some 3, true⟩ absResolve "b"
      [some "d"] "d" rfl (by decide)).2.2.2.2.2.2⟩

end ImageScrape
